import Mathlib

/-!
A shallow embedding of the tool-calling conversation core of the
gemini-cli library fork: the stream classifier (processStream in the
library module), the tool scheduler (ToolScheduler in tool-scheduler.ts)
and the conversation loop (streamQuery in the library module).

External collaborators (the model client, the tool registry, the shell
execution service, the binary detector and the per-turn randomness) are
parameters of the embedding; exceptions are modelled by Except with the
exception's message string as the error value.
-/

namespace GeminiCli

/-- A JSON-like value, modelling the payload of a producer error event;
the code serializes it with JSON.stringify, modelled by jsonStringify. -/
inductive Json where
  | null
  | bool (b : Bool)
  | num (n : Int)
  | str (s : String)
  | arr (xs : List Json)
  | obj (fields : List (String × Json))

/-- Escape of one character inside a JSON string literal. -/
def jsonEscapeChar (c : Char) : String :=
  if c = '"' then "\\\"" else if c = '\\' then "\\\\" else String.singleton c

/-- Escape of a string body for JSON serialization. -/
def jsonEscape (s : String) : String :=
  String.join (s.data.map jsonEscapeChar)

mutual

/-- Model of JavaScript JSON.stringify on the Json value model. -/
def jsonStringify : Json → String
  | .null => "null"
  | .bool b => if b then "true" else "false"
  | .num n => toString n
  | .str s => "\"" ++ jsonEscape s ++ "\""
  | .arr xs => "[" ++ jsonElems xs ++ "]"
  | .obj fs => "\x7b" ++ jsonFields fs ++ "\x7d"

/-- Comma-separated serialization of the elements of a JSON array. -/
def jsonElems : List Json → String
  | [] => ""
  | [v] => jsonStringify v
  | v :: vs => jsonStringify v ++ "," ++ jsonElems vs

/-- Comma-separated serialization of the fields of a JSON object. -/
def jsonFields : List (String × Json) → String
  | [] => ""
  | [(k, v)] => "\"" ++ jsonEscape k ++ "\":" ++ jsonStringify v
  | (k, v) :: fs => "\"" ++ jsonEscape k ++ "\":" ++ jsonStringify v ++ "," ++ jsonFields fs

end

/-- ToolCallRequestInfo as consumed by this code: the call id, the tool
name, and the args object, modelled as an association list from string
keys to string values. -/
structure ToolCallRequestInfo where
  callId : String
  name : String
  args : List (String × String)
deriving DecidableEq, Repr

/-- ToolResult from tool-scheduler.ts: a call id and a result text. -/
structure ToolResult where
  callId : String
  result : String
deriving DecidableEq, Repr

/-- The functionResponse object built by streamQuery for one result:
the outer name, the name inside the response object, and the content. -/
structure FunctionResponse where
  name : String
  responseName : String
  content : String
deriving DecidableEq, Repr

/-- Part from the genai API, restricted to the shapes this code uses. -/
inductive Part where
  | text (s : String)
  | functionResponse (fr : FunctionResponse)
deriving DecidableEq, Repr

/-- PartListUnion: either plain text or a list of parts. -/
inductive PartListUnion where
  | str (s : String)
  | parts (ps : List Part)
deriving DecidableEq, Repr

/-- ServerGeminiStreamEvent as consumed by processStream.  Payloads the
code treats as opaque (ThoughtSummary, FinishReason) are modelled as
strings; the error payload is a Json value.  The unknown constructor
models a runtime event value outside the type-level union, carrying the
unrecognized type tag it has at runtime. -/
inductive StreamEvent where
  | thought (value : String)
  | content (value : String)
  | tool_call_request (value : ToolCallRequestInfo)
  | error (value : Json)
  | finished (value : String)
  | user_cancelled
  | chat_compressed
  | loop_detected
  | tool_call_confirmation
  | tool_call_response
  | max_session_turns
  | unknown (tag : String)

/-- BotMessage: the outward message union of the library module. -/
inductive BotMessage where
  | content (c : String)
  | thought (t : String)
  | tool_call_request (request : ToolCallRequestInfo)
  | tool_result (request : ToolCallRequestInfo) (result : ToolResult)
  | error (e : String)
  | info (message : String)
  | finished (reason : String) (prompt_id : String)
deriving DecidableEq, Repr

/-- Exceptions are modelled by their message string, so getErrorMessage
from gemini-cli-core is the identity on the model. -/
def getErrorMessage (e : String) : String := e

/-- The body of the for-await loop of processStream, run over a list of
already-delivered events: the messages handed to the callback, in
order, and the collected tool call requests, in order.  A runtime event
outside the union reaches the defensive default branch, whose template
literal stringifies the event object to the fixed text
"Unknown event type: [object Object]". -/
def processStreamEvents (prompt_id : String) :
    List StreamEvent → List BotMessage × List ToolCallRequestInfo
  | [] => ([], [])
  | e :: rest =>
    let step : List BotMessage × List ToolCallRequestInfo :=
      match e with
      | .thought v => ([.thought v], [])
      | .content v => ([.content v], [])
      | .tool_call_request v => ([.tool_call_request v], [v])
      | .error v => ([.error (jsonStringify v)], [])
      | .finished v => ([.finished v prompt_id], [])
      | .user_cancelled => ([.info "Request cancelled by user."], [])
      | .chat_compressed => ([.info "Chat history was compressed."], [])
      | .loop_detected => ([.error "Loop detected. Halting execution."], [])
      | .tool_call_confirmation => ([], [])
      | .tool_call_response => ([], [])
      | .max_session_turns => ([], [])
      | .unknown _ => ([.error "Unknown event type: [object Object]"], [])
    let restOut := processStreamEvents prompt_id rest
    (step.1 ++ restOut.1, step.2 ++ restOut.2)

/-- A producer stream for one turn: the events the async iterator
yields, then an optional exception it raises.  A stream failing mid-way
is represented by the events delivered before the failure plus the
thrown message. -/
structure JsStream where
  events : List StreamEvent
  thrown : Option String := none

/-- processStream from the library module over one stream: the messages
delivered to the callback, and either the collected requests or the
propagated stream exception. -/
def processStream (s : JsStream) (prompt_id : String) :
    List BotMessage × Except String (List ToolCallRequestInfo) :=
  let out := processStreamEvents prompt_id s.events
  match s.thrown with
  | some e => (out.1, .error e)
  | none => (out.1, .ok out.2)

/-- Structured outcome of ShellExecutionService.execute: captured text
output, raw byte output, an optional error message, the aborted flag,
an optional terminating signal, and the exit code. -/
structure ExecutionResult where
  output : String
  rawOutput : List Nat
  error : Option String
  aborted : Bool
  signal : Option String
  exitCode : Int
deriving DecidableEq, Repr

/-- Content payload of a generic tool outcome: a string, or an array of
parts, modelled as strings as produced by the built-in tools. -/
inductive LlmContent where
  | str (s : String)
  | parts (ps : List String)
deriving DecidableEq, Repr

/-- Outcome of a generic tool invocation. -/
structure ToolOutcome where
  llmContent : Option LlmContent
deriving DecidableEq, Repr

/-- A built invocation.  The code always passes a fresh, never-signalled
AbortController signal to execute, so the signal argument carries no
information and is dropped; an error models a rejected promise. -/
structure ToolInvocation where
  execute : Except String ToolOutcome

/-- A tool registered in the registry; build may throw on bad args. -/
structure RegisteredTool where
  build : List (String × String) → Except String ToolInvocation

/-- The external collaborators ToolScheduler runs against: the config
target directory, the shell execution service, the binary detector and
the tool registry. -/
structure SchedulerEnv where
  targetDir : String
  shellExecute : String → String → Except String ExecutionResult
  isBinary : List Nat → Bool
  getTool : String → Option RegisteredTool

/-- Whitespace test used to model JavaScript String.prototype.trim. -/
def jsIsWhitespace (c : Char) : Bool :=
  c = ' ' ∨ c = '\n' ∨ c = '\t' ∨ c = '\r'

/-- Model of JavaScript String.prototype.trim. -/
def jsTrim (s : String) : String :=
  ⟨((s.data.dropWhile jsIsWhitespace).reverse.dropWhile jsIsWhitespace).reverse⟩

/-- Model of the JavaScript toString conversion the code applies to a
generic content payload: a string converts to itself; an array joins
the string forms of its elements with commas. -/
def jsToString : LlmContent → String
  | .str s => s
  | .parts ps => String.intercalate "," ps

/-- Normalization used by readFile, writeFile and replace: optional
chaining of toString on the content with an empty-string fallback. -/
def toStringNormalize : Option LlmContent → String
  | none => ""
  | some c => jsToString c

/-- Normalization used by readManyFiles: an array content is joined
with newlines; otherwise the toString normalization. -/
def joinNormalize : Option LlmContent → String
  | some (.parts ps) => String.intercalate "\n" ps
  | some (.str s) => s
  | none => ""

/-- The try block shared by the generic tools: build the invocation and
execute it; either step may throw. -/
def buildAndExecute (tool : RegisteredTool) (args : List (String × String)) :
    Except String ToolOutcome := do
  let invocation ← tool.build args
  invocation.execute

namespace ToolScheduler

/-- Lookup of one key in the request args object. -/
def getArg (args : List (String × String)) (key : String) : Option String :=
  (args.find? fun kv => kv.1 == key).map fun kv => kv.2

/-- Truthiness test on the command argument: JavaScript treats both an
absent key and the empty string as falsy. -/
def jsFalsy : Option String → Bool
  | none => true
  | some s => s == ""

/-- ToolScheduler.readFile from tool-scheduler.ts. -/
def readFile (env : SchedulerEnv) (args : List (String × String)) : String :=
  match env.getTool "read_file" with
  | none => "[ERROR] read_file tool not found."
  | some tool =>
    match buildAndExecute tool args with
    | .ok result => toStringNormalize result.llmContent
    | .error e => "[ERROR] Error reading file: " ++ getErrorMessage e

/-- ToolScheduler.replace from tool-scheduler.ts. -/
def replace (env : SchedulerEnv) (args : List (String × String)) : String :=
  match env.getTool "replace" with
  | none => "[ERROR] replace tool not found."
  | some tool =>
    match buildAndExecute tool args with
    | .ok result => toStringNormalize result.llmContent
    | .error e => "[ERROR] Error replacing content: " ++ getErrorMessage e

/-- ToolScheduler.writeFile from tool-scheduler.ts. -/
def writeFile (env : SchedulerEnv) (args : List (String × String)) : String :=
  match env.getTool "write_file" with
  | none => "[ERROR] write_file tool not found."
  | some tool =>
    match buildAndExecute tool args with
    | .ok result => toStringNormalize result.llmContent
    | .error e => "[ERROR] Error writing file: " ++ getErrorMessage e

/-- ToolScheduler.readManyFiles from tool-scheduler.ts. -/
def readManyFiles (env : SchedulerEnv) (args : List (String × String)) : String :=
  match env.getTool "read_many_files" with
  | none => "[ERROR] read_many_files tool not found."
  | some tool =>
    match buildAndExecute tool args with
    | .ok result => joinNormalize result.llmContent
    | .error e => "[ERROR] Error reading files: " ++ getErrorMessage e

/-- Classification of a structured shell execution outcome, in the
priority order written in runShellCommand. -/
def classifyShellResult (env : SchedulerEnv) (r : ExecutionResult) : String :=
  match r.error with
  | some m => "[ERROR] " ++ m ++ "\n" ++ r.output
  | none =>
    if r.aborted then "[CANCELLED] Command was cancelled.\n" ++ r.output
    else
      match r.signal with
      | some sig => "[ERROR] Command terminated by signal: " ++ sig ++ ".\n" ++ r.output
      | none =>
        if r.exitCode ≠ 0 then
          "[ERROR] Command exited with code " ++ toString r.exitCode ++ ".\n" ++ r.output
        else if env.isBinary r.rawOutput then
          "[Command produced binary output, which is not shown.]"
        else if jsTrim r.output == "" then "(Command produced no output)"
        else jsTrim r.output

/-- ToolScheduler.runShellCommand; a rejected promise of the shell
service propagates as an exception, the error of the Except. -/
def runShellCommand (env : SchedulerEnv) (command : Option String) : Except String String :=
  if jsFalsy command then .ok "[ERROR] No command provided to run_shell_command."
  else do
    let executionResult ← env.shellExecute (command.getD "") env.targetDir
    .ok (classifyShellResult env executionResult)

/-- The switch over the request name inside ToolScheduler.execute; an
error is an exception escaping to the surrounding catch. -/
def dispatchTool (env : SchedulerEnv) (request : ToolCallRequestInfo) : Except String String :=
  match request.name with
  | "run_shell_command" => runShellCommand env (getArg request.args "command")
  | "read_many_files" => .ok (readManyFiles env request.args)
  | "read_file" => .ok (readFile env request.args)
  | "write_file" => .ok (writeFile env request.args)
  | "replace" => .ok (replace env request.args)
  | _ => .ok ("[ERROR] Tool '" ++ request.name ++ "' is not implemented.")

/-- The per-request body of the loop inside ToolScheduler.execute: the
result text, with the catch converting any exception into the failure
text. -/
def executeOne (env : SchedulerEnv) (request : ToolCallRequestInfo) : String :=
  match dispatchTool env request with
  | .ok resultText => resultText
  | .error e => "[ERROR] Tool '" ++ request.name ++ "' failed: " ++ e

/-- ToolScheduler.execute: one result per request, in input order; the
per-request catch absorbs every failure into the result text, which is
why the embedding is a total function. -/
def execute (env : SchedulerEnv) (requests : List ToolCallRequestInfo) : List ToolResult :=
  requests.map fun request => { callId := request.callId, result := executeOne env request }

end ToolScheduler

/-- The loop body's emission of tool results in streamQuery: one
tool_result message per scheduler result whose callId matches a
collected request of the turn. -/
def toolResultMessages (toolCallRequests : List ToolCallRequestInfo)
    (toolResults : List ToolResult) : List BotMessage :=
  toolResults.filterMap fun result =>
    (toolCallRequests.find? fun req => req.callId == result.callId).map
      fun originalRequest => BotMessage.tool_result originalRequest result

/-- The synthesized next-turn input of streamQuery: one functionResponse
part per scheduler result, its name defaulting to the empty string when
no collected request matches the callId. -/
def toolResponseParts (toolCallRequests : List ToolCallRequestInfo)
    (toolResults : List ToolResult) : List Part :=
  toolResults.map fun result =>
    let name := ((toolCallRequests.find? fun req => req.callId == result.callId).map
      fun req => req.name).getD ""
    Part.functionResponse { name := name, responseName := name, content := result.result }

/-- The collaborators of streamQuery: the optional client (none models a
config whose getGeminiClient returns nothing), the session id, the
per-turn randomness used in prompt ids, and the scheduler behaviour
(the ToolScheduler together with its own collaborators; an error models
a rejected promise escaping it). -/
structure LoopEnv where
  client : Option (Nat → PartListUnion → JsStream)
  sessionId : String
  rand : Nat → String
  sched : List ToolCallRequestInfo → Except String (List ToolResult)

/-- The prompt id minted for one loop iteration. -/
def promptId (env : LoopEnv) (turn : Nat) : String :=
  env.sessionId ++ "########" ++ env.rand turn

/-- How a run of the conversation loop ended: a turn with an empty
request list was reached, or the modelling fuel ran out first. -/
inductive LoopOutcome where
  | done
  | outOfFuel
deriving DecidableEq, Repr

/-- The while-true loop of streamQuery, with fuel bounding the number of
turns modelled: the messages emitted during the modelled turns, and
either the way the loop ended or the exception escaping the loop body. -/
def runLoopAux (env : LoopEnv) (producer : Nat → PartListUnion → JsStream) :
    Nat → PartListUnion → Nat → List BotMessage × Except String LoopOutcome
  | 0, _, _ => ([], .ok .outOfFuel)
  | fuel + 1, currentPrompt, turn =>
    let prompt_id := promptId env turn
    let streamed := processStream (producer turn currentPrompt) prompt_id
    match streamed.2 with
    | .error e => (streamed.1, .error e)
    | .ok toolCallRequests =>
      if toolCallRequests.isEmpty then (streamed.1, .ok .done)
      else
        match env.sched toolCallRequests with
        | .error e => (streamed.1, .error e)
        | .ok toolResults =>
          let next := runLoopAux env producer fuel
            (.parts (toolResponseParts toolCallRequests toolResults)) (turn + 1)
          (streamed.1 ++ toolResultMessages toolCallRequests toolResults ++ next.1, next.2)

/-- streamQuery from the library module.  The outer Except is an
exception raised past the function boundary: only the missing-client
guard, which sits before the try block, can produce it.  The catch
converts any exception escaping the loop body into one final error
message. -/
def streamQuery (env : LoopEnv) (prompt : PartListUnion) (fuel : Nat) :
    Except String (List BotMessage × LoopOutcome) :=
  match env.client with
  | none => .error "Gemini client is not initialized."
  | some producer =>
    match runLoopAux env producer fuel prompt 0 with
    | (msgs, .ok outcome) => .ok (msgs, outcome)
    | (msgs, .error e) => .ok (msgs ++ [.error (getErrorMessage e)], .done)

/-- Second definition for the refinement claim about the classifier,
following the words of the specification table in section 4.1: the
messages one event maps to.  The defensive branch is stated as amended:
the code's template literal stringifies the whole event object, so the
emitted text is the fixed string and does not name the tag. -/
def specEventMessages (turnId : String) : StreamEvent → List BotMessage
  | .thought v => [.thought v]
  | .content v => [.content v]
  | .tool_call_request v => [.tool_call_request v]
  | .error v => [.error (jsonStringify v)]
  | .finished v => [.finished v turnId]
  | .user_cancelled => [.info "Request cancelled by user."]
  | .chat_compressed => [.info "Chat history was compressed."]
  | .loop_detected => [.error "Loop detected. Halting execution."]
  | .tool_call_confirmation => []
  | .tool_call_response => []
  | .max_session_turns => []
  | .unknown _ => [.error "Unknown event type: [object Object]"]

/-- Second definition for the refinement claim about the classifier:
which events the specification table appends to the collected list. -/
def specEventRequest : StreamEvent → Option ToolCallRequestInfo
  | .tool_call_request v => some v
  | _ => none

/-- A scheduler environment with nothing registered, a rejecting shell
service and a never-binary detector, for concrete evaluations. -/
def trivialSchedulerEnv : SchedulerEnv :=
  { targetDir := ""
  , shellExecute := fun _ _ => .error "rejected"
  , isBinary := fun _ => false
  , getTool := fun _ => none }

/-- A registered tool whose invocation succeeds with an array content of
two parts. -/
def partsReadTool : RegisteredTool :=
  { build := fun _ => .ok { execute := .ok { llmContent := some (.parts ["a", "b"]) } } }

/-- A scheduler environment registering partsReadTool under every one of
the four generic tool names. -/
def partsReadEnv : SchedulerEnv :=
  { targetDir := ""
  , shellExecute := fun _ _ => .error "rejected"
  , isBinary := fun _ => false
  , getTool := fun n =>
      if n == "read_file" ∨ n == "write_file" ∨ n == "replace" ∨ n == "read_many_files" then
        some partsReadTool
      else none }

/-- A concrete read_file request. -/
def readReq : ToolCallRequestInfo :=
  { callId := "c1", name := "read_file", args := [("path", "f.txt")] }

/-- The tool call request of the concrete conversation-loop scenario. -/
def scenarioReq : ToolCallRequestInfo :=
  { callId := "call1", name := "read_file", args := [("path", "f.txt")] }

/-- The scheduler result of the concrete conversation-loop scenario. -/
def scenarioRes : ToolResult := { callId := "call1", result := "content" }

/-- A producer whose first stream yields one tool call request and a
finished event, and whose second stream is empty. -/
def scenarioProducer : Nat → PartListUnion → JsStream := fun turn _ =>
  if turn == 0 then { events := [.tool_call_request scenarioReq, .finished "STOP"], thrown := none }
  else { events := [], thrown := none }

/-- The loop environment of the concrete scenario: scenarioProducer and
a scheduler returning exactly one result. -/
def scenarioEnv : LoopEnv :=
  { client := some scenarioProducer
  , sessionId := "s"
  , rand := fun _ => "0.5"
  , sched := fun _ => .ok [scenarioRes] }

/-- A producer whose stream yields one content event and then raises. -/
def throwingProducer : Nat → PartListUnion → JsStream := fun _ _ =>
  { events := [.content "x"], thrown := some "boom" }

/-- A loop environment whose producer stream raises mid-way. -/
def throwingEnv : LoopEnv :=
  { client := some throwingProducer
  , sessionId := "s"
  , rand := fun _ => "r"
  , sched := fun _ => .ok [] }

/-- A scheduler result whose callId matches no collected request. -/
def orphanRes : ToolResult := { callId := "orphan", result := "t" }

/-- A producer that always yields an empty, successful stream. -/
def emptyProducer : Nat → PartListUnion → JsStream := fun _ _ =>
  { events := [], thrown := none }

/-- A loop environment whose producer yields no events at all. -/
def emptyStreamEnv : LoopEnv :=
  { client := some emptyProducer
  , sessionId := "s"
  , rand := fun _ => "r"
  , sched := fun _ => .ok [] }

/-- C1: for every list of N tool-call requests, ToolScheduler.execute
returns exactly N results, in input order, with the i-th result's
callId equal to the i-th request's callId.  The embedding of execute is
a total function: the per-request catch absorbs every collaborator
failure into a result text, so execute never raises. -/
theorem execute_preserves_length_and_callIds (env : SchedulerEnv)
    (requests : List ToolCallRequestInfo) :
    (ToolScheduler.execute env requests).length = requests.length ∧
    (ToolScheduler.execute env requests).map (fun r => r.callId)
      = requests.map (fun r => r.callId) := by
  constructor
  · simp [ToolScheduler.execute]
  · simp [ToolScheduler.execute, List.map_map, Function.comp]

/-- C7: a request whose name resolves to no registered operation yields
the formatted not-implemented result text, which begins with the error
marker and contains the operation name, and execute never throws for
it; when the name is one of the four generic operations but the
registry has nothing under it, the result text is the corresponding
not-found text, which also begins with the error marker and contains
the operation name. -/
theorem execute_unregistered_tool (env : SchedulerEnv) (req : ToolCallRequestInfo)
    (h1 : req.name ≠ "run_shell_command") (h2 : req.name ≠ "read_many_files")
    (h3 : req.name ≠ "read_file") (h4 : req.name ≠ "write_file")
    (h5 : req.name ≠ "replace") :
    (ToolScheduler.execute env [req]
      = [{ callId := req.callId,
           result := "[ERROR] Tool '" ++ req.name ++ "' is not implemented." }]) ∧
    (∃ t, "[ERROR] Tool '" ++ req.name ++ "' is not implemented." = "[ERROR]" ++ t) ∧
    (∃ a b, "[ERROR] Tool '" ++ req.name ++ "' is not implemented." = a ++ req.name ++ b) := by
  refine ⟨?_, ?_, ?_⟩
  · have hd : ToolScheduler.dispatchTool env req
        = .ok ("[ERROR] Tool '" ++ req.name ++ "' is not implemented.") := by
      unfold ToolScheduler.dispatchTool
      split <;> simp_all
    simp [ToolScheduler.execute, ToolScheduler.executeOne, hd]
  · exact ⟨" Tool '" ++ req.name ++ "' is not implemented.", by
      simp [← String.append_assoc]⟩
  · exact ⟨"[ERROR] Tool '", "' is not implemented.", rfl⟩

/-- Witness for C7 at a concrete unregistered name. -/
theorem execute_unregistered_tool_witness :
    ToolScheduler.execute trivialSchedulerEnv
        [{ callId := "id1", name := "bogus_tool", args := [] }]
      = [{ callId := "id1",
           result := "[ERROR] Tool 'bogus_tool' is not implemented." }] :=
  (execute_unregistered_tool trivialSchedulerEnv
    { callId := "id1", name := "bogus_tool", args := [] }
    (by decide) (by decide) (by decide) (by decide) (by decide)).1

/-- C9: a run_shell_command request whose command argument is absent or
empty yields the fixed no-command error text, and the shell execution
service is never consulted: the result is the same for every shell
service the environment could carry. -/
theorem runShellCommand_missing_command (env : SchedulerEnv)
    (f : String → String → Except String ExecutionResult)
    (req : ToolCallRequestInfo)
    (hname : req.name = "run_shell_command")
    (hcmd : ToolScheduler.getArg req.args "command" = none ∨
            ToolScheduler.getArg req.args "command" = some "") :
    ToolScheduler.execute { env with shellExecute := f } [req]
      = [{ callId := req.callId,
           result := "[ERROR] No command provided to run_shell_command." }] := by
  have hfalsy : ToolScheduler.jsFalsy (ToolScheduler.getArg req.args "command") = true := by
    rcases hcmd with h | h <;> simp [ToolScheduler.jsFalsy, h]
  simp [ToolScheduler.execute, ToolScheduler.executeOne, ToolScheduler.dispatchTool, hname,
    ToolScheduler.runShellCommand, hfalsy]

/-- Witness for C9 at a concrete request with no command key. -/
theorem runShellCommand_missing_command_witness :
    ToolScheduler.execute
        { trivialSchedulerEnv with shellExecute := fun _ _ => .error "rejected" }
        [{ callId := "c9", name := "run_shell_command", args := [] }]
      = [{ callId := "c9",
           result := "[ERROR] No command provided to run_shell_command." }] :=
  runShellCommand_missing_command trivialSchedulerEnv (fun _ _ => .error "rejected")
    { callId := "c9", name := "run_shell_command", args := [] }
    rfl (Or.inl rfl)

/-- C3: runShellCommand classifies a structured execution outcome in
priority order error, aborted, signal, non-zero exit code, binary
output, trimmed output (with a fixed placeholder for empty trimmed
output); the non-binary success case with output "hello world"
followed by a newline yields exactly "hello world"; exit code 2 yields
a text starting with the exited-with-code-2 marker; binary output
yields exactly the fixed placeholder, independently of the raw bytes,
and the placeholder shares no character with a concrete binary
payload. -/
theorem classifyShellResult_priority (env : SchedulerEnv) (r : ExecutionResult) :
    (∀ m, r.error = some m →
      ToolScheduler.classifyShellResult env r = "[ERROR] " ++ m ++ "\n" ++ r.output) ∧
    (r.error = none → r.aborted = true →
      ToolScheduler.classifyShellResult env r
        = "[CANCELLED] Command was cancelled.\n" ++ r.output) ∧
    (∀ sig, r.error = none → r.aborted = false → r.signal = some sig →
      ToolScheduler.classifyShellResult env r
        = "[ERROR] Command terminated by signal: " ++ sig ++ ".\n" ++ r.output) ∧
    (r.error = none → r.aborted = false → r.signal = none → r.exitCode ≠ 0 →
      ToolScheduler.classifyShellResult env r
        = "[ERROR] Command exited with code " ++ toString r.exitCode ++ ".\n" ++ r.output) ∧
    (r.error = none → r.aborted = false → r.signal = none → r.exitCode = 2 →
      ∃ t, ToolScheduler.classifyShellResult env r
        = "[ERROR] Command exited with code 2." ++ t) ∧
    (r.error = none → r.aborted = false → r.signal = none → r.exitCode = 0 →
      env.isBinary r.rawOutput = true →
      ToolScheduler.classifyShellResult env r
        = "[Command produced binary output, which is not shown.]") ∧
    (r.error = none → r.aborted = false → r.signal = none → r.exitCode = 0 →
      env.isBinary r.rawOutput = false → r.output = "hello world\n" →
      ToolScheduler.classifyShellResult env r = "hello world") ∧
    (r.error = none → r.aborted = false → r.signal = none → r.exitCode = 0 →
      env.isBinary r.rawOutput = false → jsTrim r.output = "" →
      ToolScheduler.classifyShellResult env r = "(Command produced no output)") ∧
    (([0, 1, 159] : List Nat).all (fun b =>
      !(("[Command produced binary output, which is not shown.]".data).contains
          (Char.ofNat b))) = true) := by
  refine ⟨?_, ?_, ?_, ?_, ?_, ?_, ?_, ?_, by decide⟩
  · intro m herr
    simp [ToolScheduler.classifyShellResult, herr]
  · intro herr hab
    simp [ToolScheduler.classifyShellResult, herr, hab]
  · intro sig herr hab hsig
    simp [ToolScheduler.classifyShellResult, herr, hab, hsig]
  · intro herr hab hsig hcode
    simp [ToolScheduler.classifyShellResult, herr, hab, hsig, hcode]
  · intro herr hab hsig hcode
    refine ⟨"\n" ++ r.output, ?_⟩
    have h2 : toString (2 : Int) = "2" := by decide
    simp [ToolScheduler.classifyShellResult, herr, hab, hsig, hcode, h2,
      ← String.append_assoc]
  · intro herr hab hsig hcode hbin
    simp [ToolScheduler.classifyShellResult, herr, hab, hsig, hcode, hbin]
  · intro herr hab hsig hcode hbin hout
    have htrim : jsTrim "hello world\n" = "hello world" := by decide
    have hne : (jsTrim "hello world\n" == "") = false := by decide
    simp [ToolScheduler.classifyShellResult, herr, hab, hsig, hcode, hbin, hout, hne, htrim]
  · intro herr hab hsig hcode hbin htrim
    simp [ToolScheduler.classifyShellResult, herr, hab, hsig, hcode, hbin, htrim]

/-- Witness for C3: the happy-path outcome evaluates to the trimmed
output. -/
theorem classifyShellResult_priority_witness :
    ToolScheduler.classifyShellResult trivialSchedulerEnv
      { output := "hello world\n", rawOutput := [104], error := none,
        aborted := false, signal := none, exitCode := 0 } = "hello world" :=
  ((classifyShellResult_priority trivialSchedulerEnv
      { output := "hello world\n", rawOutput := [104], error := none,
        aborted := false, signal := none, exitCode := 0 }).2.2.2.2.2.2.1)
    rfl rfl rfl rfl rfl rfl

/-- Counterexample for C6: a read_file invocation whose content is the
two-part array of "a" and "b" yields the comma-joined text rather than
the newline-joined text the claim asserts uniformly. -/
theorem readFile_not_newline_joined :
    ToolScheduler.execute partsReadEnv [readReq]
      = [{ callId := "c1", result := "a,b" }] ∧ ("a,b" : String) ≠ "a\nb" := by
  constructor
  · decide
  · decide

/-- C6 as amended: on a successful invocation, read_many_files joins an
array content with newlines, while read_file, write_file and replace
stringify the content, an array stringifying with comma separators; an
absent payload normalizes to the empty string for all four. -/
theorem generic_content_normalization (env : SchedulerEnv)
    (req : ToolCallRequestInfo) (tool : RegisteredTool) (outcome : ToolOutcome)
    (htool : env.getTool req.name = some tool)
    (hrun : buildAndExecute tool req.args = .ok outcome) :
    (req.name = "read_many_files" →
      ToolScheduler.execute env [req]
        = [{ callId := req.callId, result := joinNormalize outcome.llmContent }]) ∧
    (req.name = "read_file" ∨ req.name = "write_file" ∨ req.name = "replace" →
      ToolScheduler.execute env [req]
        = [{ callId := req.callId, result := toStringNormalize outcome.llmContent }]) ∧
    (∀ ps, joinNormalize (some (.parts ps)) = String.intercalate "\n" ps) ∧
    (∀ ps, toStringNormalize (some (.parts ps)) = String.intercalate "," ps) ∧
    joinNormalize none = "" ∧ toStringNormalize none = "" := by
  refine ⟨?_, ?_, fun ps => rfl, fun ps => rfl, rfl, rfl⟩
  · intro hname
    rw [hname] at htool
    simp [ToolScheduler.execute, ToolScheduler.executeOne, ToolScheduler.dispatchTool, hname,
      ToolScheduler.readManyFiles, htool, hrun]
  · intro hname
    rcases hname with hname | hname | hname <;> rw [hname] at htool <;>
      simp [ToolScheduler.execute, ToolScheduler.executeOne, ToolScheduler.dispatchTool, hname,
        ToolScheduler.readFile, ToolScheduler.writeFile, ToolScheduler.replace, htool, hrun]

/-- Witness for C6 as amended: the newline join at the read_many_files
operation on the concrete two-part content. -/
theorem generic_content_normalization_witness :
    ToolScheduler.execute partsReadEnv
        [{ callId := "c2", name := "read_many_files", args := [] }]
      = [{ callId := "c2",
           result := joinNormalize (some (.parts ["a", "b"])) }] :=
  (generic_content_normalization partsReadEnv
      { callId := "c2", name := "read_many_files", args := [] }
      partsReadTool { llmContent := some (.parts ["a", "b"]) }
      rfl rfl).1 rfl

/-- Counterexample for C4: on a runtime event with unrecognized tag
"bogus", the defensive branch emits an error message whose text is the
stringified event object, and the tag does not occur in it, so the
classifier does not emit an error message naming the unrecognized
tag. -/
theorem unknown_event_message_lacks_tag :
    processStreamEvents "p0" [.unknown "bogus"]
      = ([.error "Unknown event type: [object Object]"], []) ∧
    ¬ ("bogus".data <:+: "Unknown event type: [object Object]".data) := by
  exact ⟨rfl, by decide⟩

/-- C4 as amended: over every finite event list, the classifier's
emitted messages are exactly the concatenation, in consumption order,
of the per-event messages of the specification table, with the
defensive branch emitting the fixed stringified-object error text that
does not name the tag; and the collected requests are exactly the
tool_call_request payloads in stream order, a function of the whole
list, returned only once the stream is exhausted. -/
theorem processStream_matches_spec_mapping (prompt_id : String)
    (events : List StreamEvent) :
    processStreamEvents prompt_id events
      = (events.flatMap (specEventMessages prompt_id),
         events.filterMap specEventRequest) := by
  induction events with
  | nil => rfl
  | cons e rest ih =>
    cases e <;>
      simp [processStreamEvents, specEventMessages, specEventRequest, ih]

/-- The classifier as a flatMap and filterMap of the per-event mapping;
shared shape lemma for the stream and loop proofs. -/
theorem processStreamEvents_eq (prompt_id : String) (events : List StreamEvent) :
    processStreamEvents prompt_id events
      = (events.flatMap (specEventMessages prompt_id),
         events.filterMap specEventRequest) := by
  induction events with
  | nil => rfl
  | cons e rest ih =>
    cases e <;>
      simp [processStreamEvents, specEventMessages, specEventRequest, ih]

/-- The messages of processStream do not depend on a trailing stream
exception. -/
theorem processStream_fst (s : JsStream) (prompt_id : String) :
    (processStream s prompt_id).1 = (processStreamEvents prompt_id s.events).1 := by
  rcases hs : s.thrown with _ | e <;> simp [processStream, hs]

/-- A successful processStream returns exactly the classifier's
collected requests. -/
theorem processStream_collected (s : JsStream) (prompt_id : String)
    (reqs : List ToolCallRequestInfo)
    (h : (processStream s prompt_id).2 = .ok reqs) :
    reqs = (processStreamEvents prompt_id s.events).2 := by
  rcases hs : s.thrown with _ | e
  · simp [processStream, hs] at h
    exact h.symm
  · simp [processStream, hs] at h

/-- No tool_result message is ever emitted during stream
classification. -/
theorem tool_result_not_mem_stream (prompt_id : String) (events : List StreamEvent)
    (req : ToolCallRequestInfo) (res : ToolResult) :
    BotMessage.tool_result req res ∉ (processStreamEvents prompt_id events).1 := by
  intro hmem
  rw [processStreamEvents_eq] at hmem
  rcases List.mem_flatMap.mp hmem with ⟨e, _, hin⟩
  cases e <;> simp [specEventMessages] at hin

/-- Every collected request was emitted as a tool_call_request message
during classification of the same stream. -/
theorem tool_call_request_mem_stream (prompt_id : String) (events : List StreamEvent)
    (r : ToolCallRequestInfo) (h : r ∈ (processStreamEvents prompt_id events).2) :
    BotMessage.tool_call_request r ∈ (processStreamEvents prompt_id events).1 := by
  rw [processStreamEvents_eq] at h ⊢
  rcases List.mem_filterMap.mp h with ⟨e, he, hsome⟩
  cases e
  case tool_call_request v =>
    simp [specEventRequest] at hsome
    subst hsome
    exact List.mem_flatMap.mpr ⟨.tool_call_request v, he, by simp [specEventMessages]⟩
  all_goals simp [specEventRequest] at hsome

/-- A stream with no tool_call_request event collects no requests. -/
theorem collected_nil_of_no_request (prompt_id : String) (events : List StreamEvent)
    (h : ∀ r, StreamEvent.tool_call_request r ∉ events) :
    (processStreamEvents prompt_id events).2 = [] := by
  rw [processStreamEvents_eq]
  refine List.filterMap_eq_nil_iff.mpr fun e he => ?_
  cases e
  case tool_call_request v => exact absurd he (h v)
  all_goals simp [specEventRequest]

/-- Every element of toolResultMessages is a tool_result whose request
is one of the collected requests. -/
theorem mem_toolResultMessages (reqs : List ToolCallRequestInfo)
    (results : List ToolResult) (m : BotMessage)
    (h : m ∈ toolResultMessages reqs results) :
    ∃ req res, m = BotMessage.tool_result req res ∧ req ∈ reqs := by
  rcases List.mem_filterMap.mp h with ⟨res, _, hmap⟩
  rcases Option.map_eq_some'.mp hmap with ⟨req, hfind, heq⟩
  exact ⟨req, res, heq.symm, List.mem_of_find?_eq_some hfind⟩

/-- Splitting an append at a distinguished cons point. -/
theorem append_cons_split {α : Type} (A B l r : List α) (x : α)
    (h : A ++ B = l ++ x :: r) :
    (∃ m, l = A ++ m ∧ B = m ++ x :: r) ∨ (∃ m, A = l ++ x :: m ∧ r = m ++ B) := by
  rcases List.append_eq_append_iff.mp h with ⟨a', h1, h2⟩ | ⟨c', h1, h2⟩
  · exact Or.inl ⟨a', h1, h2⟩
  · cases c' with
    | nil =>
      refine Or.inl ⟨[], by simp [h1], ?_⟩
      simpa using h2.symm
    | cons y c'' =>
      rw [List.cons_append] at h2
      injection h2 with hxy hr
      subst hxy
      exact Or.inr ⟨c'', h1, hr⟩

/-- One unfolding step of the conversation loop, in the four shapes its
body can take. -/
theorem runLoopAux_succ_shape (env : LoopEnv)
    (producer : Nat → PartListUnion → JsStream) (fuel : Nat)
    (prompt : PartListUnion) (turn : Nat) :
    (∃ e, (processStream (producer turn prompt) (promptId env turn)).2 = .error e ∧
      runLoopAux env producer (fuel + 1) prompt turn
        = ((processStream (producer turn prompt) (promptId env turn)).1, .error e)) ∨
    ((processStream (producer turn prompt) (promptId env turn)).2 = .ok [] ∧
      runLoopAux env producer (fuel + 1) prompt turn
        = ((processStream (producer turn prompt) (promptId env turn)).1, .ok .done)) ∨
    (∃ reqs e, (processStream (producer turn prompt) (promptId env turn)).2 = .ok reqs ∧
      reqs ≠ [] ∧ env.sched reqs = .error e ∧
      runLoopAux env producer (fuel + 1) prompt turn
        = ((processStream (producer turn prompt) (promptId env turn)).1, .error e)) ∨
    (∃ reqs results,
      (processStream (producer turn prompt) (promptId env turn)).2 = .ok reqs ∧
      reqs ≠ [] ∧ env.sched reqs = .ok results ∧
      runLoopAux env producer (fuel + 1) prompt turn
        = ((processStream (producer turn prompt) (promptId env turn)).1
             ++ toolResultMessages reqs results
             ++ (runLoopAux env producer fuel
                   (.parts (toolResponseParts reqs results)) (turn + 1)).1,
           (runLoopAux env producer fuel
               (.parts (toolResponseParts reqs results)) (turn + 1)).2)) := by
  rcases h2 : (processStream (producer turn prompt) (promptId env turn)).2 with e | reqs
  · exact Or.inl ⟨e, rfl, by simp [runLoopAux, h2]⟩
  · rcases reqs with _ | ⟨q, qs⟩
    · exact Or.inr (Or.inl ⟨rfl, by simp [runLoopAux, h2]⟩)
    · rcases hs : env.sched (q :: qs) with e | results
      · exact Or.inr (Or.inr (Or.inl ⟨q :: qs, e, rfl, by simp, hs,
          by simp [runLoopAux, h2, hs]⟩))
      · exact Or.inr (Or.inr (Or.inr ⟨q :: qs, results, rfl, by simp, hs,
          by simp [runLoopAux, h2, hs]⟩))

/-- In every message list a run of the conversation loop produces, a
tool_result is preceded by the tool_call_request message for the same
request. -/
theorem runLoopAux_result_after_request (env : LoopEnv)
    (producer : Nat → PartListUnion → JsStream) :
    ∀ fuel prompt turn l req res rest,
      (runLoopAux env producer fuel prompt turn).1
          = l ++ BotMessage.tool_result req res :: rest →
      BotMessage.tool_call_request req ∈ l := by
  intro fuel
  induction fuel with
  | zero =>
    intro prompt turn l req res rest h
    simp [runLoopAux] at h
  | succ fuel ih =>
    intro prompt turn l req res rest h
    have hnores : ∀ (l' rest' : List BotMessage),
        (processStream (producer turn prompt) (promptId env turn)).1
            ≠ l' ++ BotMessage.tool_result req res :: rest' := by
      intro l' rest' hcontra
      have hmem : BotMessage.tool_result req res
          ∈ (processStream (producer turn prompt) (promptId env turn)).1 := by
        rw [hcontra]
        exact List.mem_append_right l' (List.mem_cons_self _ _)
      rw [processStream_fst] at hmem
      exact tool_result_not_mem_stream _ _ _ _ hmem
    rcases runLoopAux_succ_shape env producer fuel prompt turn with
      ⟨e, h2, heq⟩ | ⟨h2, heq⟩ | ⟨reqs, e, h2, hne, hs, heq⟩ |
      ⟨reqs, results, h2, hne, hs, heq⟩
    · rw [heq] at h
      exact absurd h (hnores l rest)
    · rw [heq] at h
      exact absurd h (hnores l rest)
    · rw [heq] at h
      exact absurd h (hnores l rest)
    · rw [heq] at h
      simp only [List.append_assoc] at h
      rcases append_cons_split _ _ _ _ _ h with ⟨m, hl, hB⟩ | ⟨m, hA, _⟩
      · rcases append_cons_split _ _ _ _ _ hB with ⟨m', hm, hms⟩ | ⟨m', hTRM, _⟩
        · subst hl hm
          exact List.mem_append_right _ (List.mem_append_right _
            (ih _ _ m' req res rest hms))
        · have hmemTRM : BotMessage.tool_result req res
              ∈ toolResultMessages reqs results := by
            rw [hTRM]
            exact List.mem_append_right m (List.mem_cons_self _ _)
          rcases mem_toolResultMessages reqs results _ hmemTRM with ⟨req', res', heq', hreq'⟩
          injection heq' with hq hr
          subst hq
          have hcoll := processStream_collected _ _ _ h2
          have hmsg := tool_call_request_mem_stream (promptId env turn)
            (producer turn prompt).events req (by rw [← hcoll]; exact hreq')
          rw [← processStream_fst] at hmsg
          subst hl
          exact List.mem_append_left _ hmsg
      · exact absurd hA (hnores l m)

/-- C2: in every message sequence streamQuery emits, a tool_result
message is preceded by the tool_call_request message for the same
request (hence the same callId); and in the concrete scenario of one
tool_call_request followed by finished, with a scheduler returning one
matching result and the following stream empty, the emitted sequence is
exactly tool_call_request, finished, tool_result. -/
theorem streamQuery_result_after_request :
    (∀ env prompt fuel msgs outcome l req res rest,
      streamQuery env prompt fuel = .ok (msgs, outcome) →
      msgs = l ++ BotMessage.tool_result req res :: rest →
      BotMessage.tool_call_request req ∈ l) ∧
    streamQuery scenarioEnv (.str "hi") 2
      = .ok ([.tool_call_request scenarioReq, .finished "STOP" "s########0.5",
              .tool_result scenarioReq scenarioRes], .done) := by
  constructor
  · intro env prompt fuel msgs outcome l req res rest hq hdecomp
    rcases hclient : env.client with _ | producer
    · simp only [streamQuery, hclient] at hq
      simp at hq
    · simp only [streamQuery, hclient] at hq
      rcases hrm : runLoopAux env producer fuel prompt 0 with ⟨lmsgs, lout⟩
      rw [hrm] at hq
      have hfst : (runLoopAux env producer fuel prompt 0).1 = lmsgs := by rw [hrm]
      rcases lout with e | o
      · simp at hq
        have hmsgs : lmsgs ++ [BotMessage.error (getErrorMessage e)]
            = l ++ BotMessage.tool_result req res :: rest := by
          rw [← hdecomp]
          exact hq.1
        rcases append_cons_split _ _ _ _ _ hmsgs with ⟨m, hl, hB⟩ | ⟨m, hA, _⟩
        · rcases m with _ | ⟨a, m'⟩
          · simp at hB
          · rw [List.cons_append] at hB
            injection hB with h1 h2
            exact absurd h2.symm (by simp)
        · exact runLoopAux_result_after_request env producer fuel prompt 0 l req res m
            (by rw [hfst]; exact hA)
      · simp at hq
        have hmsgs2 : lmsgs = l ++ BotMessage.tool_result req res :: rest := by
          rw [← hdecomp]
          exact hq.1
        exact runLoopAux_result_after_request env producer fuel prompt 0 l req res rest
          (by rw [hfst]; exact hmsgs2)
  · rfl

/-- Witness for C2: the ordering fact applied at the concrete scenario. -/
theorem streamQuery_result_after_request_witness :
    BotMessage.tool_call_request scenarioReq
      ∈ [BotMessage.tool_call_request scenarioReq,
         BotMessage.finished "STOP" "s########0.5"] :=
  streamQuery_result_after_request.1 scenarioEnv (.str "hi") 2
    [.tool_call_request scenarioReq, .finished "STOP" "s########0.5",
     .tool_result scenarioReq scenarioRes] .done
    [.tool_call_request scenarioReq, .finished "STOP" "s########0.5"]
    scenarioReq scenarioRes []
    streamQuery_result_after_request.2 rfl

/-- C5: whenever the client is present, streamQuery returns normally
for every producer and scheduler behaviour: if an exception escapes the
loop body it is caught and reported as a single trailing error message,
with no finished message after it, and the call still returns ok. -/
theorem streamQuery_never_raises (env : LoopEnv) (prompt : PartListUnion)
    (fuel : Nat) (producer : Nat → PartListUnion → JsStream)
    (hclient : env.client = some producer) :
    streamQuery env prompt fuel
      = .ok (match (runLoopAux env producer fuel prompt 0).2 with
             | .ok outcome => ((runLoopAux env producer fuel prompt 0).1, outcome)
             | .error e =>
                ((runLoopAux env producer fuel prompt 0).1
                   ++ [.error (getErrorMessage e)], .done)) := by
  simp only [streamQuery, hclient]
  rcases hrm : runLoopAux env producer fuel prompt 0 with ⟨lmsgs, lout⟩
  rcases lout with e | o <;> simp

/-- Witness for C5: a producer whose stream raises mid-way still makes
streamQuery return normally, with the caught exception as one final
error message. -/
theorem streamQuery_never_raises_witness :
    streamQuery throwingEnv (.str "q") 1
      = .ok ([.content "x", .error "boom"], .done) :=
  (streamQuery_never_raises throwingEnv (.str "q") 1 throwingProducer rfl).trans rfl

/-- C8: when the producer's first stream completes with zero
tool_call_request events, streamQuery terminates after exactly that one
turn, for every remaining fuel, emitting exactly that stream's
messages; in general a turn whose collected-request list is empty ends
the loop with only that turn's stream messages, and a turn with a
non-empty list and a successful scheduler strictly progresses to a new
turn whose input is synthesized from the tool results. -/
theorem streamQuery_single_turn_termination (env : LoopEnv)
    (producer : Nat → PartListUnion → JsStream) (prompt : PartListUnion)
    (fuel turn : Nat) :
    (env.client = some producer → (producer 0 prompt).thrown = none →
      (∀ r, StreamEvent.tool_call_request r ∉ (producer 0 prompt).events) →
      streamQuery env prompt (fuel + 1)
        = .ok ((processStreamEvents (promptId env 0) (producer 0 prompt).events).1,
               .done)) ∧
    (∀ reqs, (processStream (producer turn prompt) (promptId env turn)).2 = .ok reqs →
      (reqs = [] →
        runLoopAux env producer (fuel + 1) prompt turn
          = ((processStream (producer turn prompt) (promptId env turn)).1,
             .ok .done)) ∧
      (reqs ≠ [] → ∀ results, env.sched reqs = .ok results →
        runLoopAux env producer (fuel + 1) prompt turn
          = ((processStream (producer turn prompt) (promptId env turn)).1
               ++ toolResultMessages reqs results
               ++ (runLoopAux env producer fuel
                     (.parts (toolResponseParts reqs results)) (turn + 1)).1,
             (runLoopAux env producer fuel
                 (.parts (toolResponseParts reqs results)) (turn + 1)).2))) := by
  constructor
  · intro hclient hthrown hnoreq
    have hcoll := collected_nil_of_no_request (promptId env 0)
      (producer 0 prompt).events hnoreq
    have h2 : (processStream (producer 0 prompt) (promptId env 0)).2 = .ok [] := by
      simp [processStream, hthrown, hcoll]
    simp only [streamQuery, hclient]
    have hloop : runLoopAux env producer (fuel + 1) prompt 0
        = ((processStream (producer 0 prompt) (promptId env 0)).1, .ok .done) := by
      simp [runLoopAux, h2]
    rw [hloop]
    simp [processStream_fst]
  · intro reqs h2
    constructor
    · intro hnil
      subst hnil
      simp [runLoopAux, h2]
    · intro hne results hs
      rcases reqs with _ | ⟨q, qs⟩
      · exact absurd rfl hne
      · simp [runLoopAux, h2, hs]

/-- Witness for C8: the loop stops after one turn on an empty first
stream. -/
theorem streamQuery_single_turn_termination_witness :
    streamQuery emptyStreamEnv (.str "hi") 1 = .ok ([], .done) := by
  have h := (streamQuery_single_turn_termination emptyStreamEnv emptyProducer
    (.str "hi") 0 0).1 rfl rfl (fun r => by simp [emptyProducer])
  simpa using h

/-- C10: a scheduler result whose callId matches no collected request
yields no tool_result message, yet still contributes a functionResponse
payload to the next input with the name replaced by the empty string;
a result whose callId matches a collected request yields both the
tool_result message for that request and a payload carrying the
request's name and the result text unchanged. -/
theorem tool_result_correlation (toolCallRequests : List ToolCallRequestInfo)
    (toolResults : List ToolResult) (result : ToolResult)
    (hmem : result ∈ toolResults) :
    ((∀ req ∈ toolCallRequests, req.callId ≠ result.callId) →
      (∀ req, BotMessage.tool_result req result
          ∉ toolResultMessages toolCallRequests toolResults) ∧
      Part.functionResponse { name := "", responseName := "", content := result.result }
        ∈ toolResponseParts toolCallRequests toolResults) ∧
    (∀ req, toolCallRequests.find? (fun q => q.callId == result.callId) = some req →
      BotMessage.tool_result req result
        ∈ toolResultMessages toolCallRequests toolResults ∧
      Part.functionResponse
          { name := req.name, responseName := req.name, content := result.result }
        ∈ toolResponseParts toolCallRequests toolResults) := by
  constructor
  · intro hnone
    have hfind : toolCallRequests.find? (fun q => q.callId == result.callId) = none := by
      refine List.find?_eq_none.mpr fun q hq => ?_
      simpa using hnone q hq
    constructor
    · intro req hin
      rcases List.mem_filterMap.mp hin with ⟨res', hres', hmap⟩
      rcases Option.map_eq_some'.mp hmap with ⟨q, hq, heq⟩
      injection heq with h1 h2
      subst h1 h2
      rw [hfind] at hq
      exact absurd hq (by simp)
    · simp only [toolResponseParts, List.mem_map]
      exact ⟨result, hmem, by simp [hfind]⟩
  · intro req hfind
    constructor
    · exact List.mem_filterMap.mpr ⟨result, hmem, by simp [hfind]⟩
    · simp only [toolResponseParts, List.mem_map]
      exact ⟨result, hmem, by simp [hfind]⟩

/-- Witness for C10: the orphan result produces no tool_result message
but still a function-response payload with an empty name. -/
theorem tool_result_correlation_witness :
    (∀ req, BotMessage.tool_result req orphanRes
        ∉ toolResultMessages [scenarioReq] [scenarioRes, orphanRes]) ∧
    Part.functionResponse { name := "", responseName := "", content := "t" }
      ∈ toolResponseParts [scenarioReq] [scenarioRes, orphanRes] :=
  (tool_result_correlation [scenarioReq] [scenarioRes, orphanRes] orphanRes
    (by simp)).1 (by decide)

end GeminiCli
